import Mathlib

/-!
Verification of the presser feed-reader core against its specification.

Shallow embedding conventions:
* Timestamps (`chrono::DateTime<Utc>`, SQL `CURRENT_TIMESTAMP`) are `Nat`;
  every stateful operation takes the current time `now` explicitly.
* SQLite tables are lists of rows keyed by their primary key; SQL
  `INSERT ... ON CONFLICT(id) DO UPDATE` becomes replace-if-present /
  append-if-absent, with exactly the field set the query's conflict
  clause updates.
* Fallible operations return `Except String α`; database storage errors
  are not modelled (the store itself never fails), matching the claims,
  which are all about the success behaviour of the store.
* External collaborators (HTTP fetch, feed-grammar parser, AI providers,
  the `cron` crate, SHA-256) are parameters of the operations that call
  them, constrained only by hypotheses stated in the theorems.
-/

deriving instance DecidableEq for Except

namespace Presser

/-- Row of the `feeds` table (`presser-db/src/models.rs`, `struct Feed`). -/
structure Feed where
  id : String
  url : String
  title : String
  description : Option String
  site_url : Option String
  last_fetched : Option Nat
  last_successful_fetch : Option Nat
  last_error : Option String
  entry_count : Int
  enabled : Bool
  created_at : Nat
  updated_at : Nat
deriving DecidableEq

/-- Row of the `entries` table (`presser-db/src/models.rs`, `struct Entry`). -/
structure Entry where
  id : String
  feed_id : String
  title : String
  url : String
  author : Option String
  published : Option Nat
  updated : Option Nat
  summary : Option String
  content_html : Option String
  content_text : Option String
  categories : Option String
  read : Bool
  created_at : Nat
  updated_at : Nat
deriving DecidableEq

/-- The SQLite database: the two tables the claims touch. -/
structure Store where
  feeds : List Feed
  entries : List Entry
deriving DecidableEq

/-- `get_feed` (`queries.rs`): `SELECT * FROM feeds WHERE id = ?`. -/
def get_feed (s : Store) (id : String) : Option Feed :=
  s.feeds.find? (fun r => r.id == id)

/-- `get_entry` (`queries.rs`): `SELECT * FROM entries WHERE id = ?`. -/
def get_entry (s : Store) (id : String) : Option Entry :=
  s.entries.find? (fun r => r.id == id)

/-- `get_all_feeds` (`queries.rs`): returns every row of `feeds`.  The SQL
`ORDER BY title COLLATE NOCASE` only reorders the result; the claims are
insensitive to the order, so rows are returned in table order. -/
def get_all_feeds (s : Store) : List Feed :=
  s.feeds

/-- The `DO UPDATE SET` clause of `upsert_feed` (`queries.rs`): every
column is overwritten from `excluded` except `id` and `created_at`;
`updated_at` is set to `CURRENT_TIMESTAMP`. -/
def feedConflictUpdate (now : Nat) (old new : Feed) : Feed :=
  { new with id := old.id, created_at := old.created_at, updated_at := now }

/-- `upsert_feed` (`queries.rs`): `INSERT ... ON CONFLICT(id) DO UPDATE`. -/
def upsert_feed (now : Nat) (s : Store) (f : Feed) : Store :=
  if s.feeds.any (fun r => r.id == f.id) then
    { s with feeds := s.feeds.map (fun r => if r.id == f.id then feedConflictUpdate now r f else r) }
  else
    { s with feeds := s.feeds ++ [f] }

/-- The `DO UPDATE SET` clause of `upsert_entry` (`queries.rs`): every
column is overwritten from `excluded` except `id`, `read` and
`created_at`; `updated_at` is set to `CURRENT_TIMESTAMP`. -/
def entryConflictUpdate (now : Nat) (old new : Entry) : Entry :=
  { old with
      feed_id := new.feed_id
      title := new.title
      url := new.url
      author := new.author
      published := new.published
      updated := new.updated
      summary := new.summary
      content_html := new.content_html
      content_text := new.content_text
      categories := new.categories
      updated_at := now }

/-- `upsert_entry` (`queries.rs`): `INSERT ... ON CONFLICT(id) DO UPDATE`
with `read` and `created_at` excluded from the update set. -/
def upsert_entry (now : Nat) (s : Store) (e : Entry) : Store :=
  if s.entries.any (fun r => r.id == e.id) then
    { s with entries := s.entries.map (fun r => if r.id == e.id then entryConflictUpdate now r e else r) }
  else
    { s with entries := s.entries ++ [e] }

/-- `mark_read` (`queries.rs`):
`UPDATE entries SET read = 1, updated_at = CURRENT_TIMESTAMP WHERE id = ?`.
The UPDATE succeeds whether or not any row matches. -/
def mark_read (now : Nat) (s : Store) (entry_id : String) : Except String Store :=
  .ok { s with entries :=
        s.entries.map (fun r => if r.id == entry_id then { r with read := true, updated_at := now } else r) }

/-- `mark_unread` (`queries.rs`):
`UPDATE entries SET read = 0, updated_at = CURRENT_TIMESTAMP WHERE id = ?`. -/
def mark_unread (now : Nat) (s : Store) (entry_id : String) : Except String Store :=
  .ok { s with entries :=
        s.entries.map (fun r => if r.id == entry_id then { r with read := false, updated_at := now } else r) }

/-- Number of entry rows currently linked to a feed
(`SELECT COUNT(*) FROM entries WHERE feed_id = ?`). -/
def linked_entry_count (s : Store) (feed_id : String) : Nat :=
  (s.entries.filter (fun e => e.feed_id == feed_id)).length

-- ---------------------------------------------------------------------------
-- Ingestion pipeline (presser-core/src/engine.rs)
-- ---------------------------------------------------------------------------

/-- `presser_feeds::FeedMetadata`: feed-level data returned by the fetcher. -/
structure FeedMetadata where
  title : String
  description : Option String
  url : String
  site_url : Option String
  last_updated : Option Nat
deriving DecidableEq

/-- `presser_feeds::FeedEntry`: one parsed entry returned by the fetcher. -/
structure FeedEntry where
  id : String
  title : String
  url : String
  published : Option Nat
  updated : Option Nat
  summary : Option String
  content_html : Option String
  content_text : Option String
  author : Option String
  categories : List String
deriving DecidableEq

/-- `serde_json::to_string` on a `Vec<String>` (external collaborator);
modelled as an arbitrary fixed deterministic encoding — the claims only
use that it is a function of the category list. -/
def encodeCategories (cats : List String) : String :=
  String.intercalate "," cats

/-- The `presser_db::Entry` the engine builds from a fetched entry in
`update_feed` (engine.rs): fetched fields copied over,
`..Default::default()` supplying `read = false` and fresh timestamps. -/
def entryFromFeed (now : Nat) (feed_id : String) (e : FeedEntry) : Entry :=
  { id := e.id
    feed_id := feed_id
    title := e.title
    url := e.url
    author := e.author
    published := e.published
    updated := e.updated
    summary := e.summary
    content_html := e.content_html
    content_text := e.content_text
    categories := if e.categories.isEmpty then none else some (encodeCategories e.categories)
    read := false
    created_at := now
    updated_at := now }

/-- The result type of `FeedFetcher::fetch`: metadata plus parsed entries,
or a transport/parse error. The fetcher itself is an external collaborator;
the engine operations take it as a function of the feed URL. -/
def FetchResult : Type := Except String (FeedMetadata × List FeedEntry)

/-- `Engine::update_feed` (engine.rs): load the feed row (error if absent);
fetch; on success overwrite metadata, set both fetch timestamps, clear
`last_error`, set `entry_count` to the fetched batch size and upsert every
fetched entry; on failure set only `last_fetched`/`last_error` on the
loaded row, store it, and propagate the error. Returns the new store and
the propagated result. -/
def update_feed (now : Nat) (fetchFor : String → FetchResult) (s : Store)
    (feed_id : String) : Store × Except String Unit :=
  match get_feed s feed_id with
  | none => (s, .error ("Feed not found: " ++ feed_id))
  | some feed =>
    match fetchFor feed.url with
    | .ok (metadata, entries) =>
      let updated_feed : Feed :=
        { feed with
            title := metadata.title
            description := metadata.description
            site_url := metadata.site_url
            last_fetched := some now
            last_successful_fetch := some now
            last_error := none
            entry_count := (entries.length : Int) }
      let s1 := upsert_feed now s updated_feed
      let s2 := entries.foldl (fun st e => upsert_entry now st (entryFromFeed now feed_id e)) s1
      (s2, .ok ())
    | .error e =>
      (upsert_feed now s { feed with last_fetched := some now, last_error := some e },
       .error e)

/-- `Engine::update_all_feeds` (engine.rs): snapshot all feeds, call
`update_feed` for each enabled one, swallowing (logging) any per-feed
error; the batch call itself returns `Ok(())`. -/
def update_all_feeds (now : Nat) (fetchFor : String → FetchResult) (s : Store) :
    Store × Except String Unit :=
  ((get_all_feeds s).foldl
      (fun st feed => if feed.enabled then (update_feed now fetchFor st feed.id).1 else st) s,
   .ok ())

/-- The feed row stored by a successful `update_feed` pass, as a function
of the previously loaded row: metadata overwritten, both fetch timestamps
set, `last_error` cleared, `entry_count` set to the batch size, and
`updated_at` refreshed by the upsert's conflict clause. -/
def feedOnSuccess (now : Nat) (feed : Feed) (md : FeedMetadata) (n : Int) : Feed :=
  { feed with
      title := md.title
      description := md.description
      site_url := md.site_url
      last_fetched := some now
      last_successful_fetch := some now
      last_error := none
      entry_count := n
      updated_at := now }

/-- The feed row stored by a failed `update_feed` pass: only
`last_fetched`, `last_error` and (via the upsert conflict clause)
`updated_at` differ from the loaded row. -/
def feedOnFailure (now : Nat) (feed : Feed) (msg : String) : Feed :=
  { feed with last_fetched := some now, last_error := some msg, updated_at := now }

-- ---------------------------------------------------------------------------
-- List helper lemmas
-- ---------------------------------------------------------------------------

theorem find?_map_if {α : Type} (idf : α → String) (l : List α) (pid : String) (f : α → α)
    (hf : ∀ x, idf (f x) = idf x) (r : α)
    (h : l.find? (fun x => idf x == pid) = some r) :
    (l.map (fun x => if idf x == pid then f x else x)).find? (fun x => idf x == pid)
      = some (f r) := by
  induction l with
  | nil => simp at h
  | cons a l ih =>
    simp only [List.map_cons]
    by_cases ha : idf a = pid
    · rw [List.find?_cons_of_pos _ (by simp [ha])] at h
      rw [if_pos (by simp [ha]), List.find?_cons_of_pos _ (by simp [hf, ha])]
      injection h with h
      rw [h]
    · rw [List.find?_cons_of_neg _ (by simp [ha])] at h
      rw [if_neg (by simp [ha]), List.find?_cons_of_neg _ (by simp [ha])]
      exact ih h

theorem find?_map_if_ne {α : Type} (idf : α → String) (l : List α) (pid qid : String)
    (f : α → α) (hf : ∀ x, idf (f x) = idf x) (hne : qid ≠ pid) :
    (l.map (fun x => if idf x == pid then f x else x)).find? (fun x => idf x == qid)
      = l.find? (fun x => idf x == qid) := by
  induction l with
  | nil => simp
  | cons a l ih =>
    simp only [List.map_cons]
    by_cases ha : idf a = qid
    · have hap : ¬(idf a = pid) := fun hc => hne (ha.symm.trans hc)
      rw [if_neg (by simp [hap]), List.find?_cons_of_pos _ (by simp [ha]),
        List.find?_cons_of_pos _ (by simp [ha])]
    · by_cases hap : idf a = pid
      · rw [if_pos (by simp [hap]), List.find?_cons_of_neg _ (by simp [hf, ha]),
          List.find?_cons_of_neg _ (by simp [ha])]
        exact ih
      · rw [if_neg (by simp [hap]), List.find?_cons_of_neg _ (by simp [ha]),
          List.find?_cons_of_neg _ (by simp [ha])]
        exact ih

theorem find?_eq_some_of_mem_nodup (l : List Feed)
    (hnd : (l.map Feed.id).Nodup) (fd : Feed) (hm : fd ∈ l) :
    l.find? (fun r => r.id == fd.id) = some fd := by
  induction l with
  | nil => simp at hm
  | cons a l ih =>
    simp only [List.map_cons, List.nodup_cons] at hnd
    rcases List.mem_cons.mp hm with h | h
    · subst h
      rw [List.find?_cons_of_pos _ (by simp)]
    · have hne : a.id ≠ fd.id := by
        intro hcontra
        exact hnd.1 (hcontra ▸ List.mem_map_of_mem Feed.id h)
      rw [List.find?_cons_of_neg _ (by simp [hne])]
      exact ih hnd.2 h

-- ---------------------------------------------------------------------------
-- Store-level lemmas
-- ---------------------------------------------------------------------------

theorem get_feed_congr (s₁ s₂ : Store) (id : String) (h : s₁.feeds = s₂.feeds) :
    get_feed s₁ id = get_feed s₂ id := by
  unfold get_feed
  rw [h]

theorem get_feed_upsert_feed_self (now : Nat) (s : Store) (f : Feed) (old : Feed)
    (h : get_feed s f.id = some old) :
    get_feed (upsert_feed now s f) f.id = some (feedConflictUpdate now old f) := by
  have h' : s.feeds.find? (fun x => x.id == f.id) = some old := h
  have hp : (old.id == f.id) = true := @List.find?_some Feed (fun x => x.id == f.id) old s.feeds h'
  have hany : s.feeds.any (fun x => x.id == f.id) = true :=
    List.any_eq_true.mpr ⟨old, List.mem_of_find?_eq_some h', hp⟩
  unfold upsert_feed get_feed
  rw [if_pos hany]
  exact find?_map_if Feed.id s.feeds f.id (fun x => feedConflictUpdate now x f) (fun _ => rfl) old h'

theorem get_feed_upsert_feed_ne (now : Nat) (s : Store) (f : Feed) (id : String)
    (hne : id ≠ f.id) :
    get_feed (upsert_feed now s f) id = get_feed s id := by
  unfold upsert_feed get_feed
  by_cases hany : s.feeds.any (fun x => x.id == f.id) = true
  · rw [if_pos hany]
    exact find?_map_if_ne Feed.id s.feeds f.id id (fun x => feedConflictUpdate now x f)
      (fun _ => rfl) hne
  · rw [if_neg hany, List.find?_append]
    have hnone : List.find? (fun x => x.id == id) [f] = none := by
      rw [List.find?_cons_of_neg _ (by simp [Ne.symm hne])]
      rfl
    rw [hnone, Option.or_none]

theorem upsert_feed_entries (now : Nat) (s : Store) (f : Feed) :
    (upsert_feed now s f).entries = s.entries := by
  unfold upsert_feed
  split <;> rfl

theorem upsert_entry_feeds (now : Nat) (s : Store) (e : Entry) :
    (upsert_entry now s e).feeds = s.feeds := by
  unfold upsert_entry
  split <;> rfl

theorem foldl_upsert_entry_feeds (now : Nat) (fid : String) (es : List FeedEntry) (s : Store) :
    (es.foldl (fun st e => upsert_entry now st (entryFromFeed now fid e)) s).feeds = s.feeds := by
  induction es generalizing s with
  | nil => rfl
  | cons e es ih => rw [List.foldl_cons, ih, upsert_entry_feeds]

theorem feed_id_of_get_feed (s : Store) (fid : String) (feed : Feed)
    (h : get_feed s fid = some feed) : feed.id = fid := by
  have h' : s.feeds.find? (fun x => x.id == fid) = some feed := h
  have hp : (feed.id == fid) = true := @List.find?_some Feed (fun x => x.id == fid) feed s.feeds h'
  exact eq_of_beq hp

theorem update_feed_failure_store (now : Nat) (fetchFor : String → FetchResult) (s : Store)
    (fid : String) (feed : Feed) (msg : String)
    (h1 : get_feed s fid = some feed) (h2 : fetchFor feed.url = .error msg) :
    update_feed now fetchFor s fid
      = (upsert_feed now s { feed with last_fetched := some now, last_error := some msg },
         .error msg) := by
  simp only [update_feed, h1, h2]

theorem update_feed_success_store (now : Nat) (fetchFor : String → FetchResult) (s : Store)
    (fid : String) (feed : Feed) (md : FeedMetadata) (es : List FeedEntry)
    (h1 : get_feed s fid = some feed) (h2 : fetchFor feed.url = .ok (md, es)) :
    update_feed now fetchFor s fid
      = (es.foldl (fun st e => upsert_entry now st (entryFromFeed now fid e))
          (upsert_feed now s
            { feed with
                title := md.title
                description := md.description
                site_url := md.site_url
                last_fetched := some now
                last_successful_fetch := some now
                last_error := none
                entry_count := (es.length : Int) }),
         .ok ()) := by
  simp only [update_feed, h1, h2]

-- ---------------------------------------------------------------------------
-- Concrete fixtures used by witnesses and counterexamples
-- ---------------------------------------------------------------------------

/-- A minimal enabled feed row with both timestamps 0 and no fetch history. -/
def sampleFeed (id url : String) : Feed :=
  { id := id, url := url, title := "t", description := none, site_url := none,
    last_fetched := none, last_successful_fetch := none, last_error := none,
    entry_count := 0, enabled := true, created_at := 0, updated_at := 0 }

/-- A minimal unread entry row. -/
def sampleEntry (id fid : String) : Entry :=
  { id := id, feed_id := fid, title := "t", url := "u", author := none,
    published := none, updated := none, summary := none, content_html := none,
    content_text := none, categories := none, read := false,
    created_at := 0, updated_at := 0 }

/-- Minimal fetched feed metadata. -/
def sampleMeta : FeedMetadata :=
  { title := "mt", description := none, url := "u", site_url := none, last_updated := none }

/-- A minimal fetched entry. -/
def sampleFeedEntry (id : String) : FeedEntry :=
  { id := id, title := "ft", url := "fu", published := none, updated := none,
    summary := none, content_html := none, content_text := none, author := none,
    categories := [] }

-- ---------------------------------------------------------------------------
-- C1: upsert_entry preserves the read flag of an existing row
-- ---------------------------------------------------------------------------

/-- C1: upserting an entry whose id already has a stored row leaves that
row's `read` flag exactly as it was (in particular, a row stored with
`read = true` stays `read = true`): `read` is excluded from the
update-on-conflict field set of `upsert_entry`. -/
theorem upsert_entry_preserves_read (now : Nat) (s : Store) (e : Entry) (r : Entry)
    (h : get_entry s e.id = some r) :
    ∃ r', get_entry (upsert_entry now s e) e.id = some r' ∧ r'.read = r.read := by
  have h' : s.entries.find? (fun x => x.id == e.id) = some r := h
  have hp : (r.id == e.id) = true := @List.find?_some Entry (fun x => x.id == e.id) r s.entries h'
  have hmem : r ∈ s.entries := List.mem_of_find?_eq_some h'
  have hany : s.entries.any (fun x => x.id == e.id) = true :=
    List.any_eq_true.mpr ⟨r, hmem, hp⟩
  refine ⟨entryConflictUpdate now r e, ?_, rfl⟩
  unfold upsert_entry get_entry
  rw [if_pos hany]
  exact find?_map_if Entry.id s.entries e.id (fun x => entryConflictUpdate now x e) (fun _ => rfl) r h'

/-- Witness for C1 at a concrete store: a row stored read keeps read = true
after an upsert of the same id with different content. -/
theorem upsert_entry_preserves_read_witness :
    ∃ r', get_entry (upsert_entry 7
        { feeds := [],
          entries := [{ id := "e1", feed_id := "f1", title := "old", url := "u",
                        author := none, published := none, updated := none,
                        summary := none, content_html := none, content_text := none,
                        categories := none, read := true, created_at := 0, updated_at := 0 }] }
        { id := "e1", feed_id := "f1", title := "new", url := "u2",
          author := none, published := none, updated := none,
          summary := none, content_html := none, content_text := none,
          categories := none, read := false, created_at := 7, updated_at := 7 }) "e1" = some r'
      ∧ r'.read = ({ id := "e1", feed_id := "f1", title := "old", url := "u",
                     author := none, published := none, updated := none,
                     summary := none, content_html := none, content_text := none,
                     categories := none, read := true, created_at := 0, updated_at := 0 } : Entry).read :=
  upsert_entry_preserves_read 7
    { feeds := [],
      entries := [{ id := "e1", feed_id := "f1", title := "old", url := "u",
                    author := none, published := none, updated := none,
                    summary := none, content_html := none, content_text := none,
                    categories := none, read := true, created_at := 0, updated_at := 0 }] }
    { id := "e1", feed_id := "f1", title := "new", url := "u2",
      author := none, published := none, updated := none,
      summary := none, content_html := none, content_text := none,
      categories := none, read := false, created_at := 7, updated_at := 7 }
    { id := "e1", feed_id := "f1", title := "old", url := "u",
      author := none, published := none, updated := none,
      summary := none, content_html := none, content_text := none,
      categories := none, read := true, created_at := 0, updated_at := 0 }
    (by decide)

-- ---------------------------------------------------------------------------
-- C10: mark_read / mark_unread on an absent id succeed and change nothing
-- ---------------------------------------------------------------------------

/-- C10: for an entry id matching no stored row, `mark_read` and
`mark_unread` return success (the UPDATE simply matches zero rows) and
leave the store completely unchanged. -/
theorem mark_read_unread_absent_id (now : Nat) (s : Store) (entry_id : String)
    (h : ∀ r ∈ s.entries, r.id ≠ entry_id) :
    mark_read now s entry_id = .ok s ∧ mark_unread now s entry_id = .ok s := by
  have hmapr : ∀ (f : Entry → Entry),
      s.entries.map (fun r => if r.id == entry_id then f r else r) = s.entries := by
    intro f
    conv_rhs => rw [← List.map_id s.entries]
    apply List.map_congr_left
    intro r hr
    simp [h r hr]
  constructor
  · unfold mark_read
    rw [hmapr]
  · unfold mark_unread
    rw [hmapr]

/-- Witness for C10: a store holding only entry "e1" is untouched by
marking the absent id "zz" read or unread. -/
theorem mark_read_unread_absent_id_witness :
    mark_read 5
      { feeds := [],
        entries := [{ id := "e1", feed_id := "f1", title := "t", url := "u",
                      author := none, published := none, updated := none,
                      summary := none, content_html := none, content_text := none,
                      categories := none, read := false, created_at := 0, updated_at := 0 }] }
      "zz" = .ok
      { feeds := [],
        entries := [{ id := "e1", feed_id := "f1", title := "t", url := "u",
                      author := none, published := none, updated := none,
                      summary := none, content_html := none, content_text := none,
                      categories := none, read := false, created_at := 0, updated_at := 0 }] }
    ∧ mark_unread 5
      { feeds := [],
        entries := [{ id := "e1", feed_id := "f1", title := "t", url := "u",
                      author := none, published := none, updated := none,
                      summary := none, content_html := none, content_text := none,
                      categories := none, read := false, created_at := 0, updated_at := 0 }] }
      "zz" = .ok
      { feeds := [],
        entries := [{ id := "e1", feed_id := "f1", title := "t", url := "u",
                      author := none, published := none, updated := none,
                      summary := none, content_html := none, content_text := none,
                      categories := none, read := false, created_at := 0, updated_at := 0 }] } :=
  mark_read_unread_absent_id 5
    { feeds := [],
      entries := [{ id := "e1", feed_id := "f1", title := "t", url := "u",
                    author := none, published := none, updated := none,
                    summary := none, content_html := none, content_text := none,
                    categories := none, read := false, created_at := 0, updated_at := 0 }] }
    "zz" (by decide)

-- ---------------------------------------------------------------------------
-- C6: failed update_feed touches only last_fetched / last_error (/updated_at)
-- ---------------------------------------------------------------------------

/-- The frame property of a failed `update_feed` pass: the error is
propagated, no entry row is touched, and the stored feed row differs from
the loaded one only in `last_fetched`, `last_error` and `updated_at`. -/
def UpdateFeedFailureFrame (now : Nat) (fetchFor : String → FetchResult) (s : Store)
    (fid : String) (feed : Feed) (msg : String) : Prop :=
  (update_feed now fetchFor s fid).2 = .error msg
  ∧ ((update_feed now fetchFor s fid).1).entries = s.entries
  ∧ get_feed ((update_feed now fetchFor s fid).1) fid = some (feedOnFailure now feed msg)
  ∧ (feedOnFailure now feed msg).title = feed.title
  ∧ (feedOnFailure now feed msg).description = feed.description
  ∧ (feedOnFailure now feed msg).site_url = feed.site_url
  ∧ (feedOnFailure now feed msg).last_successful_fetch = feed.last_successful_fetch
  ∧ (feedOnFailure now feed msg).entry_count = feed.entry_count
  ∧ (feedOnFailure now feed msg).enabled = feed.enabled
  ∧ (feedOnFailure now feed msg).url = feed.url
  ∧ (feedOnFailure now feed msg).created_at = feed.created_at
  ∧ (feedOnFailure now feed msg).last_fetched = some now
  ∧ (feedOnFailure now feed msg).last_error = some msg

/-- C6 (amended): when the fetch fails, `update_feed` stores the loaded
row with only `last_fetched`, `last_error` — and, via the upsert conflict
clause, `updated_at` — changed; `title`, `description`, `site_url`,
`last_successful_fetch`, `entry_count`, `enabled`, `url`, `created_at`
keep the loaded values, no entry row is touched, and the fetch error is
propagated to the caller. -/
theorem update_feed_failure_frame (now : Nat) (fetchFor : String → FetchResult) (s : Store)
    (fid : String) (feed : Feed) (msg : String)
    (h1 : get_feed s fid = some feed) (h2 : fetchFor feed.url = .error msg) :
    UpdateFeedFailureFrame now fetchFor s fid feed msg := by
  have hid : feed.id = fid := feed_id_of_get_feed s fid feed h1
  subst hid
  have hupd := update_feed_failure_store now fetchFor s feed.id feed msg h1 h2
  refine ⟨?_, ?_, ?_, rfl, rfl, rfl, rfl, rfl, rfl, rfl, rfl, rfl, rfl⟩
  · rw [hupd]
  · rw [hupd]
    exact upsert_feed_entries now s _
  · rw [hupd]
    exact get_feed_upsert_feed_self now s
      { feed with last_fetched := some now, last_error := some msg } feed h1

/-- Witness for C6's amended theorem at a concrete store and failing fetch. -/
theorem update_feed_failure_frame_witness :
    UpdateFeedFailureFrame 5 (fun _ => .error "boom")
      { feeds := [sampleFeed "f1" "u"], entries := [] } "f1" (sampleFeed "f1" "u") "boom" :=
  update_feed_failure_frame 5 (fun _ => .error "boom")
    { feeds := [sampleFeed "f1" "u"], entries := [] } "f1" (sampleFeed "f1" "u") "boom"
    (by decide) rfl

/-- Counterexample to C6 as stated: on a failed fetch the stored row's
`updated_at` also changes (the upsert's conflict clause sets it to
`CURRENT_TIMESTAMP`), so `last_fetched` and `last_error` are not the only
fields that change. -/
theorem update_feed_failure_changes_updated_at :
    (get_feed ((update_feed 5 (fun _ => .error "boom")
        { feeds := [sampleFeed "f1" "u"], entries := [] } "f1").1) "f1").map Feed.updated_at
      = some 5
    ∧ (get_feed { feeds := [sampleFeed "f1" "u"], entries := [] } "f1").map Feed.updated_at
      = some 0 := by
  decide

-- ---------------------------------------------------------------------------
-- C7: entry_count after a successful update_feed
-- ---------------------------------------------------------------------------

/-- C7 (amended): after a successful `update_feed`, the stored
`entry_count` equals the number of entries in the fetched payload — not a
recount of the entry rows linked to the feed in the store (stale rows from
earlier fetches stay linked but are not counted). -/
theorem update_feed_success_entry_count (now : Nat) (fetchFor : String → FetchResult)
    (s : Store) (fid : String) (feed : Feed) (md : FeedMetadata) (es : List FeedEntry)
    (h1 : get_feed s fid = some feed) (h2 : fetchFor feed.url = .ok (md, es)) :
    (update_feed now fetchFor s fid).2 = .ok ()
    ∧ (get_feed ((update_feed now fetchFor s fid).1) fid).map Feed.entry_count
        = some ((es.length : Int)) := by
  have hid : feed.id = fid := feed_id_of_get_feed s fid feed h1
  subst hid
  have hupd := update_feed_success_store now fetchFor s feed.id feed md es h1 h2
  constructor
  · rw [hupd]
  · rw [hupd]
    have hfeeds : (es.foldl (fun st e => upsert_entry now st (entryFromFeed now feed.id e))
        (upsert_feed now s
          { feed with
              title := md.title
              description := md.description
              site_url := md.site_url
              last_fetched := some now
              last_successful_fetch := some now
              last_error := none
              entry_count := (es.length : Int) })).feeds
        = (upsert_feed now s
          { feed with
              title := md.title
              description := md.description
              site_url := md.site_url
              last_fetched := some now
              last_successful_fetch := some now
              last_error := none
              entry_count := (es.length : Int) }).feeds :=
      foldl_upsert_entry_feeds now feed.id es _
    rw [get_feed_congr _ _ feed.id hfeeds]
    have hself : get_feed (upsert_feed now s
        { feed with
            title := md.title
            description := md.description
            site_url := md.site_url
            last_fetched := some now
            last_successful_fetch := some now
            last_error := none
            entry_count := (es.length : Int) }) feed.id
        = some (feedConflictUpdate now feed
          { feed with
              title := md.title
              description := md.description
              site_url := md.site_url
              last_fetched := some now
              last_successful_fetch := some now
              last_error := none
              entry_count := (es.length : Int) }) :=
      get_feed_upsert_feed_self now s _ feed h1
    rw [hself]
    rfl

/-- Witness for C7's amended theorem at a concrete store and a successful
two-entry fetch. -/
theorem update_feed_success_entry_count_witness :
    (update_feed 5 (fun _ => .ok (sampleMeta, [sampleFeedEntry "e2", sampleFeedEntry "e3"]))
        { feeds := [sampleFeed "f1" "u"], entries := [] } "f1").2 = .ok ()
    ∧ (get_feed ((update_feed 5
          (fun _ => .ok (sampleMeta, [sampleFeedEntry "e2", sampleFeedEntry "e3"]))
          { feeds := [sampleFeed "f1" "u"], entries := [] } "f1").1) "f1").map Feed.entry_count
        = some (([sampleFeedEntry "e2", sampleFeedEntry "e3"].length : Int)) :=
  update_feed_success_entry_count 5
    (fun _ => .ok (sampleMeta, [sampleFeedEntry "e2", sampleFeedEntry "e3"]))
    { feeds := [sampleFeed "f1" "u"], entries := [] } "f1" (sampleFeed "f1" "u")
    sampleMeta [sampleFeedEntry "e2", sampleFeedEntry "e3"] (by decide) rfl

/-- Counterexample to C7 as stated: a store already holding an entry
linked to the feed, re-fetched with one new entry — the stored
`entry_count` is 1 (the payload size) while 2 entry rows are linked to the
feed, so `entry_count` does not mirror the linked rows. -/
theorem entry_count_differs_from_linked_count :
    (get_feed ((update_feed 5 (fun _ => .ok (sampleMeta, [sampleFeedEntry "e2"]))
        { feeds := [sampleFeed "f1" "u"], entries := [sampleEntry "e1" "f1"] } "f1").1)
        "f1").map Feed.entry_count = some 1
    ∧ linked_entry_count ((update_feed 5 (fun _ => .ok (sampleMeta, [sampleFeedEntry "e2"]))
        { feeds := [sampleFeed "f1" "u"], entries := [sampleEntry "e1" "f1"] } "f1").1) "f1" = 2
    ∧ (get_feed ((update_feed 5 (fun _ => .ok (sampleMeta, [sampleFeedEntry "e2"]))
        { feeds := [sampleFeed "f1" "u"], entries := [sampleEntry "e1" "f1"] } "f1").1)
        "f1").map Feed.entry_count
      ≠ some ((linked_entry_count ((update_feed 5
          (fun _ => .ok (sampleMeta, [sampleFeedEntry "e2"]))
          { feeds := [sampleFeed "f1" "u"], entries := [sampleEntry "e1" "f1"] } "f1").1)
          "f1" : Int)) := by
  decide

-- ---------------------------------------------------------------------------
-- C2: per-feed failure isolation of update_all_feeds
-- ---------------------------------------------------------------------------

/-- The feed row stored for feed `fd` by the `update_feed` pass that
`update_all_feeds` runs for it, determined by whether `fd`'s fetch
succeeds or fails. -/
def feedExpected (now : Nat) (fetchFor : String → FetchResult) (fd : Feed) : Feed :=
  match fetchFor fd.url with
  | .ok (md, es) => feedOnSuccess now fd md (es.length : Int)
  | .error msg => feedOnFailure now fd msg

theorem update_feed_self_row (now : Nat) (fetchFor : String → FetchResult) (st : Store)
    (fid : String) (feed : Feed) (hg : get_feed st fid = some feed) :
    get_feed ((update_feed now fetchFor st fid).1) fid = some (feedExpected now fetchFor feed) := by
  have hid : feed.id = fid := feed_id_of_get_feed st fid feed hg
  subst hid
  cases hf : fetchFor feed.url with
  | error msg =>
    have hexp : feedExpected now fetchFor feed = feedOnFailure now feed msg := by
      unfold feedExpected
      rw [hf]
    rw [hexp, update_feed_failure_store now fetchFor st feed.id feed msg hg hf]
    exact get_feed_upsert_feed_self now st _ feed hg
  | ok pr =>
    obtain ⟨md, es⟩ := pr
    have hexp : feedExpected now fetchFor feed = feedOnSuccess now feed md (es.length : Int) := by
      unfold feedExpected
      rw [hf]
    rw [hexp, update_feed_success_store now fetchFor st feed.id feed md es hg hf]
    have hfeeds := foldl_upsert_entry_feeds now feed.id es
      (upsert_feed now st
        { feed with
            title := md.title
            description := md.description
            site_url := md.site_url
            last_fetched := some now
            last_successful_fetch := some now
            last_error := none
            entry_count := (es.length : Int) })
    rw [get_feed_congr _ _ feed.id hfeeds]
    exact get_feed_upsert_feed_self now st _ feed hg

theorem get_feed_update_feed_ne (now : Nat) (fetchFor : String → FetchResult) (st : Store)
    (fid id : String) (hne : id ≠ fid) :
    get_feed ((update_feed now fetchFor st fid).1) id = get_feed st id := by
  cases hg : get_feed st fid with
  | none => simp only [update_feed, hg]
  | some feed =>
    have hid : feed.id = fid := feed_id_of_get_feed st fid feed hg
    cases hf : fetchFor feed.url with
    | error msg =>
      rw [update_feed_failure_store now fetchFor st fid feed msg hg hf]
      exact get_feed_upsert_feed_ne now st _ id (fun hc => hne (hc.trans hid))
    | ok pr =>
      obtain ⟨md, es⟩ := pr
      rw [update_feed_success_store now fetchFor st fid feed md es hg hf]
      have hfeeds := foldl_upsert_entry_feeds now fid es
        (upsert_feed now st
          { feed with
              title := md.title
              description := md.description
              site_url := md.site_url
              last_fetched := some now
              last_successful_fetch := some now
              last_error := none
              entry_count := (es.length : Int) })
      rw [get_feed_congr _ _ id hfeeds]
      exact get_feed_upsert_feed_ne now st _ id (fun hc => hne (hc.trans hid))

theorem get_feed_foldl_update_ne (now : Nat) (fetchFor : String → FetchResult)
    (L : List Feed) (st : Store) (id : String) (h : ∀ fd ∈ L, id ≠ fd.id) :
    get_feed (L.foldl
        (fun st feed => if feed.enabled then (update_feed now fetchFor st feed.id).1 else st) st) id
      = get_feed st id := by
  induction L generalizing st with
  | nil => rfl
  | cons a L ih =>
    rw [List.foldl_cons,
      ih (if a.enabled then (update_feed now fetchFor st a.id).1 else st)
        (fun fd hfd => h fd (List.mem_cons_of_mem a hfd))]
    by_cases ha : a.enabled = true
    · rw [if_pos ha]
      exact get_feed_update_feed_ne now fetchFor st a.id id (h a (List.mem_cons_self a L))
    · rw [if_neg ha]

theorem foldl_update_all_rows (now : Nat) (fetchFor : String → FetchResult)
    (L : List Feed) (st : Store) (hnd : (L.map Feed.id).Nodup)
    (hpre : ∀ fd ∈ L, get_feed st fd.id = some fd) :
    ∀ fd ∈ L, fd.enabled = true →
      get_feed (L.foldl
          (fun st feed => if feed.enabled then (update_feed now fetchFor st feed.id).1 else st) st)
          fd.id
        = some (feedExpected now fetchFor fd) := by
  induction L generalizing st with
  | nil =>
    intro fd hfd
    simp at hfd
  | cons a L ih =>
    simp only [List.map_cons, List.nodup_cons] at hnd
    intro fd hfd hen
    rw [List.foldl_cons]
    rcases List.mem_cons.mp hfd with heq | hmem
    · subst heq
      rw [get_feed_foldl_update_ne now fetchFor L _ fd.id
        (fun fd' hfd' heq' => hnd.1 (heq' ▸ List.mem_map_of_mem Feed.id hfd'))]
      rw [if_pos hen]
      exact update_feed_self_row now fetchFor st fd.id fd (hpre fd (List.mem_cons_self fd L))
    · refine ih _ hnd.2 ?_ fd hmem hen
      intro fd' hfd'
      have hne : fd'.id ≠ a.id := by
        intro hc
        exact hnd.1 (hc ▸ List.mem_map_of_mem Feed.id hfd')
      by_cases ha : a.enabled = true
      · rw [if_pos ha, get_feed_update_feed_ne now fetchFor st a.id fd'.id hne]
        exact hpre fd' (List.mem_cons_of_mem a hfd')
      · rw [if_neg ha]
        exact hpre fd' (List.mem_cons_of_mem a hfd')

/-- Partial-failure isolation of the batch update: the call returns
success, and each enabled feed's row shows the outcome of its own
`update_feed` pass — a failing feed records its fetch error in
`last_error` with `entry_count` and `last_successful_fetch` untouched, a
succeeding feed clears `last_error` and advances
`last_successful_fetch`. -/
def UpdateAllFeedsIsolation (now : Nat) (fetchFor : String → FetchResult) (s : Store) : Prop :=
  (update_all_feeds now fetchFor s).2 = .ok ()
  ∧ ∀ fd ∈ s.feeds, fd.enabled = true →
      ∃ fd', get_feed ((update_all_feeds now fetchFor s).1) fd.id = some fd'
        ∧ (∀ msg, fetchFor fd.url = .error msg →
            fd'.last_error = some msg ∧ fd'.entry_count = fd.entry_count
              ∧ fd'.last_successful_fetch = fd.last_successful_fetch)
        ∧ (∀ md es, fetchFor fd.url = .ok (md, es) →
            fd'.last_error = none ∧ fd'.last_successful_fetch = some now)

/-- C2: whatever the per-feed fetch outcomes, `update_all_feeds` runs
`update_feed` for every enabled feed and itself returns success; a feed
whose fetch fails surfaces the failure only through its `last_error`
(its `entry_count` and `last_successful_fetch` are untouched), while the
other enabled feeds are still updated. -/
theorem update_all_feeds_isolation (now : Nat) (fetchFor : String → FetchResult) (s : Store)
    (hnd : (s.feeds.map Feed.id).Nodup) :
    UpdateAllFeedsIsolation now fetchFor s := by
  constructor
  · rfl
  · intro fd hfd hen
    have hpre : ∀ f ∈ s.feeds, get_feed s f.id = some f := by
      intro f hf
      exact find?_eq_some_of_mem_nodup s.feeds hnd f hf
    have hrow := foldl_update_all_rows now fetchFor s.feeds s hnd hpre fd hfd hen
    refine ⟨feedExpected now fetchFor fd, hrow, ?_, ?_⟩
    · intro msg hmsg
      have hexp : feedExpected now fetchFor fd = feedOnFailure now fd msg := by
        unfold feedExpected
        rw [hmsg]
      rw [hexp]
      exact ⟨rfl, rfl, rfl⟩
    · intro md es hok
      have hexp : feedExpected now fetchFor fd = feedOnSuccess now fd md (es.length : Int) := by
        unfold feedExpected
        rw [hok]
      rw [hexp]
      exact ⟨rfl, rfl⟩

/-- Witness for C2 at a concrete three-feed store: feed "f2"'s fetch
fails, "f1" succeeds, "f3" is disabled. -/
theorem update_all_feeds_isolation_witness :
    UpdateAllFeedsIsolation 5
      (fun url => if url == "u2" then .error "boom" else .ok (sampleMeta, []))
      { feeds := [sampleFeed "f1" "u1", sampleFeed "f2" "u2",
                  { sampleFeed "f3" "u3" with enabled := false }],
        entries := [] } :=
  update_all_feeds_isolation 5
    (fun url => if url == "u2" then .error "boom" else .ok (sampleMeta, []))
    { feeds := [sampleFeed "f1" "u1", sampleFeed "f2" "u2",
                { sampleFeed "f3" "u3" with enabled := false }],
      entries := [] }
    (by decide)

-- ---------------------------------------------------------------------------
-- Scheduler (presser-scheduler/src/lib.rs)
-- ---------------------------------------------------------------------------

/-- A parsed `cron::Schedule` (external collaborator). `fires` says which
instants the schedule fires at; `upcomingNext` is
`Schedule::upcoming(Utc).next()`, queried at a given current time. The
relation between the two is assumed, where needed, through
`CronSched.Wf`. -/
structure CronSched where
  fires : Nat → Bool
  upcomingNext : Nat → Option Nat

/-- `t` is the earliest fire time of `c` strictly after `now`. -/
def isEarliestFireAfter (c : CronSched) (now t : Nat) : Prop :=
  now < t ∧ c.fires t = true ∧ ∀ u, now < u → c.fires u = true → t ≤ u

/-- Modelled from the spec: the `cron` crate's
`Schedule::upcoming(Utc).next()` (the crate is an external collaborator,
not part of this repository) yields the earliest fire time strictly after
the queried moment whenever it yields anything. -/
def CronSched.Wf (c : CronSched) : Prop :=
  ∀ now t, c.upcomingNext now = some t → isEarliestFireAfter c now t

/-- `struct ScheduledTask` (lib.rs): id, schedule, last/next run. The
`executor: Arc<dyn Task>` is an external callback; dispatching is
modelled by reporting the dispatched task ids, so the executor itself
carries no data the claims need. -/
structure SchedTask where
  id : String
  sched : CronSched
  last_run : Option Nat
  next_run : Nat

/-- The scheduler's mutable state: the task registry (`HashMap` keyed by
id, modelled as a list with distinct ids) and the number of semaphore
permits currently available (`Semaphore::new(max_concurrent)` with
`try_acquire_owned`). -/
structure SchedState where
  tasks : List SchedTask
  available : Nat

/-- `Scheduler::new` (lib.rs): rejects a zero concurrency limit, otherwise
starts with an empty registry and `max_concurrent` free permits. -/
def schedulerNew (max_concurrent : Nat) : Except String SchedState :=
  if max_concurrent == 0 then .error "max_concurrent must be greater than 0"
  else .ok { tasks := [], available := max_concurrent }

/-- `HashMap::insert` on the registry: replace the task with the same id
if present, else add it. -/
def insertTask (l : List SchedTask) (t : SchedTask) : List SchedTask :=
  if l.any (fun x => x.id == t.id) then l.map (fun x => if x.id == t.id then t else x)
  else l ++ [t]

/-- `Scheduler::schedule` (lib.rs): compute the first `next_run` from the
parsed schedule (error if the schedule yields no upcoming time; the cron
parse itself happens before this point and is external), then insert the
task keyed by id. -/
def schedule (now : Nat) (st : SchedState) (id : String) (sched : CronSched) :
    Except String SchedState :=
  match sched.upcomingNext now with
  | none => .error "Failed to calculate next run time"
  | some next_run =>
    let t : SchedTask := { id := id, sched := sched, last_run := none, next_run := next_run }
    .ok { st with tasks := insertTask st.tasks t }

/-- The per-task update `Scheduler::tick` performs inside the registry
lock: a due task gets `last_run = now` and `next_run` advanced to the
schedule's next upcoming time (left unchanged when the schedule is
exhausted, mirroring the `if let Some(next)`). -/
def advanceIfDue (now : Nat) (t : SchedTask) : SchedTask :=
  if t.next_run ≤ now then
    { t with last_run := some now, next_run := (t.sched.upcomingNext now).getD t.next_run }
  else t

/-- The ids of the tasks due at `now` (`task.next_run <= now`), in
registry order — the list `tick` collects while holding the lock. -/
def dueIds (now : Nat) (st : SchedState) : List String :=
  (st.tasks.filter (fun t => t.next_run ≤ now)).map (fun t => t.id)

/-- The dispatch loop of `Scheduler::tick`: for each due task id try a
non-blocking `try_acquire_owned`; on success dispatch (consuming one
permit), on exhaustion skip the task for this tick. Returns
(dispatched ids, skipped ids, permits left). -/
def dispatch : Nat → List String → List String × List String × Nat
  | avail, [] => ([], [], avail)
  | avail, id :: rest =>
    if 0 < avail then
      let r := dispatch (avail - 1) rest
      (id :: r.1, r.2.1, r.2.2)
    else
      let r := dispatch avail rest
      (r.1, id :: r.2.1, r.2.2)

/-- `Scheduler::tick` (lib.rs): snapshot the due tasks and advance their
timestamps under the lock, then — outside the lock — run the dispatch
loop over the due ids. Returns the new state, the dispatched ids and the
skipped ids. -/
def tick (now : Nat) (st : SchedState) : SchedState × List String × List String :=
  ({ tasks := st.tasks.map (advanceIfDue now),
     available := (dispatch st.available (dueIds now st)).2.2 },
   (dispatch st.available (dueIds now st)).1,
   (dispatch st.available (dueIds now st)).2.1)

theorem dispatch_eq (l : List String) (a : Nat) :
    dispatch a l = (l.take a, l.drop a, a - l.length) := by
  induction l generalizing a with
  | nil => simp [dispatch]
  | cons x rest ih =>
    by_cases h : 0 < a
    · obtain ⟨b, rfl⟩ : ∃ b, a = b + 1 := ⟨a - 1, by omega⟩
      simp only [dispatch, if_pos h, Nat.add_sub_cancel, ih, List.take_succ_cons,
        List.drop_succ_cons, List.length_cons, Nat.succ_sub_succ, Nat.sub_zero]
    · have ha : a = 0 := by omega
      subst ha
      simp [dispatch, ih]

/-- The every-second schedule (`* * * * * *`): fires at every instant, so
the earliest fire time after `now` is `now + 1`. Used to instantiate the
abstract `CronSched` in witnesses. -/
def cronEverySecond : CronSched :=
  { fires := fun _ => true, upcomingNext := fun n => some (n + 1) }

/-- A registry task with the every-second schedule, never run yet. -/
def taskAt (id : String) (nr : Nat) : SchedTask :=
  { id := id, sched := cronEverySecond, last_run := none, next_run := nr }

-- ---------------------------------------------------------------------------
-- C3: the concurrency ceiling bounds per-tick dispatch; excess is skipped
-- ---------------------------------------------------------------------------

/-- C3: with all `C` permits of the ceiling free and `C + k` tasks due on
one tick, exactly `C` executions are dispatched (so at most `C` are ever
in flight) and the remaining `k` due tasks fail the non-blocking permit
acquisition and are skipped; dispatched and skipped ids together are
exactly the due ids, each handled once — nothing is queued or retried
within the tick. -/
theorem tick_concurrency_ceiling (now : Nat) (st : SchedState) (C k : Nat)
    (hC : st.available = C) (hdue : (dueIds now st).length = C + k) :
    ((tick now st).2.1).length = C
    ∧ ((tick now st).2.2).length = k
    ∧ (tick now st).2.1 ++ (tick now st).2.2 = dueIds now st := by
  subst hC
  refine ⟨?_, ?_, ?_⟩
  · show ((dispatch st.available (dueIds now st)).1).length = st.available
    rw [dispatch_eq, List.length_take, hdue]
    omega
  · show ((dispatch st.available (dueIds now st)).2.1).length = k
    rw [dispatch_eq, List.length_drop, hdue]
    omega
  · show (dispatch st.available (dueIds now st)).1
        ++ (dispatch st.available (dueIds now st)).2.1 = dueIds now st
    rw [dispatch_eq]
    exact List.take_append_drop st.available (dueIds now st)

/-- Witness for C3: ceiling 2 with three tasks due on the same tick —
two dispatched, one skipped, together the due list. -/
theorem tick_concurrency_ceiling_witness :
    ((tick 0 { tasks := [taskAt "a" 0, taskAt "b" 0, taskAt "c" 0], available := 2 }).2.1).length = 2
    ∧ ((tick 0 { tasks := [taskAt "a" 0, taskAt "b" 0, taskAt "c" 0], available := 2 }).2.2).length = 1
    ∧ (tick 0 { tasks := [taskAt "a" 0, taskAt "b" 0, taskAt "c" 0], available := 2 }).2.1
        ++ (tick 0 { tasks := [taskAt "a" 0, taskAt "b" 0, taskAt "c" 0], available := 2 }).2.2
      = dueIds 0 { tasks := [taskAt "a" 0, taskAt "b" 0, taskAt "c" 0], available := 2 } :=
  tick_concurrency_ceiling 0
    { tasks := [taskAt "a" 0, taskAt "b" 0, taskAt "c" 0], available := 2 } 2 1 rfl rfl

-- ---------------------------------------------------------------------------
-- C4: next_run is the earliest fire time strictly after the moment that set it
-- ---------------------------------------------------------------------------

theorem mem_insertTask (l : List SchedTask) (t : SchedTask) : t ∈ insertTask l t := by
  unfold insertTask
  by_cases h : l.any (fun x => x.id == t.id) = true
  · rw [if_pos h]
    obtain ⟨x, hx, hxid⟩ := List.any_eq_true.mp h
    exact List.mem_map.mpr ⟨x, hx, by rw [if_pos hxid]⟩
  · rw [if_neg h]
    exact List.mem_append_right l (List.mem_singleton.mpr rfl)

/-- C4: (registration) a successful `schedule` stores a task whose
`next_run` is the earliest fire time of its cron schedule strictly after
the registration moment; (tick) a task due at a tick has, in the
post-tick registry, `last_run = now` and `next_run` advanced — in the
snapshot phase, before any dispatch — to the earliest fire time strictly
after the tick, hence no longer due at this tick. -/
theorem next_run_strictly_after :
    (∀ (now : Nat) (st : SchedState) (id : String) (c : CronSched) (st' : SchedState),
      CronSched.Wf c → schedule now st id c = .ok st' →
      ∃ t ∈ st'.tasks, t.id = id ∧ isEarliestFireAfter c now t.next_run)
    ∧ (∀ (now : Nat) (st : SchedState) (t : SchedTask) (nx : Nat),
      t ∈ st.tasks → t.next_run ≤ now → CronSched.Wf t.sched →
      t.sched.upcomingNext now = some nx →
      advanceIfDue now t ∈ (tick now st).1.tasks
      ∧ (advanceIfDue now t).last_run = some now
      ∧ (advanceIfDue now t).next_run = nx
      ∧ isEarliestFireAfter t.sched now (advanceIfDue now t).next_run
      ∧ ¬((advanceIfDue now t).next_run ≤ now)) := by
  constructor
  · intro now st id c st' hwf hok
    cases hup : c.upcomingNext now with
    | none =>
      simp only [schedule, hup] at hok
      exact Except.noConfusion hok
    | some nx =>
      simp only [schedule, hup] at hok
      injection hok with h
      subst h
      exact ⟨{ id := id, sched := c, last_run := none, next_run := nx },
        mem_insertTask st.tasks _, rfl, hwf now nx hup⟩
  · intro now st t nx hmem hdue hwf hup
    have hadv : advanceIfDue now t
        = { t with last_run := some now, next_run := nx } := by
      unfold advanceIfDue
      rw [if_pos hdue, hup]
      rfl
    refine ⟨List.mem_map_of_mem (advanceIfDue now) hmem, ?_, ?_, ?_, ?_⟩
    · rw [hadv]
    · rw [hadv]
    · rw [hadv]
      exact hwf now nx hup
    · rw [hadv]
      have h1 := (hwf now nx hup).1
      show ¬(nx ≤ now)
      omega

/-- Witness for C4: register the every-second schedule at time 0
(`next_run` becomes 1 > 0), and tick a due task at time 3
(`next_run` advances to 4 > 3). -/
theorem next_run_strictly_after_witness :
    (∃ t ∈ ({ tasks := [taskAt "task1" 1], available := 2 } : SchedState).tasks,
        t.id = "task1" ∧ isEarliestFireAfter cronEverySecond 0 t.next_run)
    ∧ (advanceIfDue 3 (taskAt "task1" 0)
          ∈ (tick 3 { tasks := [taskAt "task1" 0], available := 2 }).1.tasks
        ∧ (advanceIfDue 3 (taskAt "task1" 0)).last_run = some 3
        ∧ (advanceIfDue 3 (taskAt "task1" 0)).next_run = 4
        ∧ isEarliestFireAfter cronEverySecond 3 (advanceIfDue 3 (taskAt "task1" 0)).next_run
        ∧ ¬((advanceIfDue 3 (taskAt "task1" 0)).next_run ≤ 3)) := by
  have hwf : CronSched.Wf cronEverySecond := by
    intro now t h
    have h' : some (now + 1) = some t := h
    injection h' with h2
    subst h2
    exact ⟨by omega, rfl, fun u hu _ => by omega⟩
  constructor
  · exact next_run_strictly_after.1 0 { tasks := [], available := 2 } "task1"
      cronEverySecond { tasks := [taskAt "task1" 1], available := 2 } hwf (by rfl)
  · exact next_run_strictly_after.2 3 { tasks := [taskAt "task1" 0], available := 2 }
      (taskAt "task1" 0) 4 (List.mem_singleton.mpr rfl) (by decide) hwf rfl

-- ---------------------------------------------------------------------------
-- Summarization cache & provider abstraction (presser-ai/src/lib.rs)
-- ---------------------------------------------------------------------------

/-- `AiProvider` (lib.rs): the closed set of provider strategies. -/
inductive AiProvider where
  | OpenAI
  | Anthropic
  | Local
deriving DecidableEq

/-- `AiConfig` (lib.rs). `temperature: f32` is omitted: it is floating
point and none of the modelled operations read it. -/
structure AiConfig where
  provider : AiProvider
  api_key : Option String
  model : String
  endpoint : Option String
  system_prompt : String
  max_tokens : Nat
  enable_cache : Bool
deriving DecidableEq

/-- What `summarize` uses of the `Summary` a provider strategy returns:
its text and token count. -/
structure ProviderResult where
  text : String
  tokens : Option Nat
deriving DecidableEq

/-- `Summary` (lib.rs): the value `summarize` returns to its caller. -/
structure SummaryOut where
  text : String
  cached : Bool
  model : String
  tokens : Option Nat
deriving DecidableEq

/-- The in-memory cache `HashMap<String, String>`, as an association list
keyed by the cache key. -/
def lookupCache (c : List (String × String)) (k : String) : Option String :=
  (c.find? (fun p => p.1 == k)).map (fun p => p.2)

/-- `HashMap::insert`: replace the value under an existing key, else add
the binding. -/
def insertCache (c : List (String × String)) (k v : String) : List (String × String) :=
  if c.any (fun p => p.1 == k) then c.map (fun p => if p.1 == k then (k, v) else p)
  else c ++ [(k, v)]

/-- The byte string `AiClient::cache_key` feeds to the Sha256 hasher: the
content, the system prompt and the model name concatenated in that order
with no separator between them (three successive `hasher.update` calls). -/
def hashInput (cfg : AiConfig) (content : String) : String :=
  content ++ cfg.system_prompt ++ cfg.model

/-- `AiClient::cache_key`: the hex digest of `hashInput`. Sha256 is an
external pure function, so the key is `h (hashInput cfg content)` for a
fixed deterministic `h`; theorems quantify over an arbitrary `h`, so
nothing is assumed about collisions of distinct digest inputs. -/
def cacheKeyWith (h : String → String) (cfg : AiConfig) (content : String) : String :=
  h (hashInput cfg content)

/-- `AiClient::summarize` (lib.rs): when caching is enabled, look the key
up and on a hit return the cached text tagged `cached = true` without
touching any provider; otherwise dispatch to the single provider strategy
selected by `config.provider` (`providerCall`, the external capability),
propagate its error, or store the text under the key (when caching is
enabled) and return it tagged `cached = false`. The final component
counts provider invocations made by the call. -/
def summarize (h : String → String)
    (providerCall : AiProvider → String → Except String ProviderResult)
    (cfg : AiConfig) (cache : List (String × String)) (content : String) :
    Except String SummaryOut × List (String × String) × Nat :=
  match (if cfg.enable_cache then lookupCache cache (cacheKeyWith h cfg content) else none) with
  | some cachedText =>
    (.ok { text := cachedText, cached := true, model := cfg.model, tokens := none }, cache, 0)
  | none =>
    match providerCall cfg.provider content with
    | .error e => (.error e, cache, 1)
    | .ok ps =>
      (.ok { text := ps.text, cached := false, model := cfg.model, tokens := ps.tokens },
       if cfg.enable_cache then insertCache cache (cacheKeyWith h cfg content) ps.text else cache,
       1)

theorem lookupCache_insertCache_self (c : List (String × String)) (k v : String)
    (h : lookupCache c k = none) :
    lookupCache (insertCache c k v) k = some v := by
  have hfind : c.find? (fun p => p.1 == k) = none := by
    unfold lookupCache at h
    cases hf : c.find? (fun p => p.1 == k) with
    | none => rfl
    | some p =>
      rw [hf] at h
      simp at h
  have hall := List.find?_eq_none.mp hfind
  have hany : ¬(c.any (fun p => p.1 == k) = true) := by
    rw [List.any_eq_true]
    rintro ⟨p, hp, hpk⟩
    exact hall p hp hpk
  unfold insertCache
  rw [if_neg hany]
  unfold lookupCache
  rw [List.find?_append, hfind, List.find?_cons_of_pos _ (by simp)]
  rfl

-- ---------------------------------------------------------------------------
-- C5: summarize cache contract
-- ---------------------------------------------------------------------------

/-- C5 (amended): with caching enabled, a `summarize` miss invokes the
selected provider exactly once, stores the text under the content-keyed
fingerprint and returns it tagged `cached = false`; a second call with
the identical (content, prompt, model) hits the cache, invokes no
provider, and returns the same text tagged `cached = true` — one provider
invocation across the two calls. (With `enable_cache = false` the code
never consults or fills the cache, so the claim needs the caching-enabled
premise.) -/
theorem summarize_cache_contract (h : String → String)
    (providerCall : AiProvider → String → Except String ProviderResult)
    (cfg : AiConfig) (cache : List (String × String)) (content : String) (ps : ProviderResult)
    (hen : cfg.enable_cache = true)
    (hp : providerCall cfg.provider content = .ok ps)
    (hmiss : lookupCache cache (cacheKeyWith h cfg content) = none) :
    summarize h providerCall cfg cache content
      = (.ok { text := ps.text, cached := false, model := cfg.model, tokens := ps.tokens },
         insertCache cache (cacheKeyWith h cfg content) ps.text, 1)
    ∧ summarize h providerCall cfg (summarize h providerCall cfg cache content).2.1 content
      = (.ok { text := ps.text, cached := true, model := cfg.model, tokens := none },
         insertCache cache (cacheKeyWith h cfg content) ps.text, 0) := by
  have h1 : summarize h providerCall cfg cache content
      = (.ok { text := ps.text, cached := false, model := cfg.model, tokens := ps.tokens },
         insertCache cache (cacheKeyWith h cfg content) ps.text, 1) := by
    simp [summarize, hen, hmiss, hp]
  refine ⟨h1, ?_⟩
  rw [h1]
  show summarize h providerCall cfg
      (insertCache cache (cacheKeyWith h cfg content) ps.text) content = _
  simp [summarize, hen,
    lookupCache_insertCache_self cache (cacheKeyWith h cfg content) ps.text hmiss]

/-- Reusable successful provider: every strategy returns "sum". -/
def okProvider : AiProvider → String → Except String ProviderResult :=
  fun _ _ => .ok { text := "sum", tokens := none }

/-- A configuration with caching enabled. -/
def cfgCache : AiConfig :=
  { provider := .Local, api_key := none, model := "m", endpoint := none,
    system_prompt := "p", max_tokens := 100, enable_cache := true }

/-- Witness for C5's amended theorem: empty cache, successful provider,
two identical calls — one invocation then a tagged cache hit. -/
theorem summarize_cache_contract_witness :
    summarize (fun s => s) okProvider cfgCache [] "x"
      = (.ok { text := "sum", cached := false, model := cfgCache.model, tokens := none },
         insertCache [] (cacheKeyWith (fun s => s) cfgCache "x") "sum", 1)
    ∧ summarize (fun s => s) okProvider cfgCache
        (summarize (fun s => s) okProvider cfgCache [] "x").2.1 "x"
      = (.ok { text := "sum", cached := true, model := cfgCache.model, tokens := none },
         insertCache [] (cacheKeyWith (fun s => s) cfgCache "x") "sum", 0) :=
  summarize_cache_contract (fun s => s) okProvider cfgCache [] "x"
    { text := "sum", tokens := none } rfl rfl rfl

/-- Counterexample to C5 as stated: with `enable_cache = false` (a legal
configuration the claim does not exclude) two identical `summarize` calls
each invoke the provider — two invocations in total — and the second call
reports `cached = false`. -/
theorem summarize_cache_disabled_two_invocations :
    (summarize (fun s => s) okProvider { cfgCache with enable_cache := false } [] "x").2.2 = 1
    ∧ (summarize (fun s => s) okProvider { cfgCache with enable_cache := false }
        (summarize (fun s => s) okProvider { cfgCache with enable_cache := false } [] "x").2.1
        "x").2.2 = 1
    ∧ (summarize (fun s => s) okProvider { cfgCache with enable_cache := false }
        (summarize (fun s => s) okProvider { cfgCache with enable_cache := false } [] "x").2.1
        "x").1
      = .ok { text := "sum", cached := false, model := "m", tokens := none } := by
  decide

-- ---------------------------------------------------------------------------
-- C8: the cache key as a function of (content, prompt, model)
-- ---------------------------------------------------------------------------

/-- Configuration whose prompt is "c" (model "m"). -/
def cfgPromptC : AiConfig :=
  { provider := .OpenAI, api_key := none, model := "m", endpoint := none,
    system_prompt := "c", max_tokens := 100, enable_cache := true }

/-- Configuration whose prompt is "bc" (model "m"). -/
def cfgPromptBC : AiConfig :=
  { provider := .OpenAI, api_key := none, model := "m", endpoint := none,
    system_prompt := "bc", max_tokens := 100, enable_cache := true }

/-- C8 (amended): the cache key is a deterministic function of the
unseparated concatenation content ‖ prompt ‖ model — identical triples
always yield the same key, and more generally any two triples with equal
concatenations yield equal keys (whatever the digest function), so
triples that differ in a component but concatenate identically collide
and changing one component does not by itself guarantee a cache miss. -/
theorem cache_key_determined_by_concatenation :
    (∀ (h : String → String) (cfg₁ cfg₂ : AiConfig) (c₁ c₂ : String),
      c₁ = c₂ → cfg₁.system_prompt = cfg₂.system_prompt → cfg₁.model = cfg₂.model →
      cacheKeyWith h cfg₁ c₁ = cacheKeyWith h cfg₂ c₂)
    ∧ (∀ (h : String → String) (cfg₁ cfg₂ : AiConfig) (c₁ c₂ : String),
      hashInput cfg₁ c₁ = hashInput cfg₂ c₂ →
      cacheKeyWith h cfg₁ c₁ = cacheKeyWith h cfg₂ c₂)
    ∧ (∃ (cfg₁ cfg₂ : AiConfig) (c₁ c₂ : String),
      (c₁, cfg₁.system_prompt, cfg₁.model) ≠ (c₂, cfg₂.system_prompt, cfg₂.model)
      ∧ ∀ h₂ : String → String, cacheKeyWith h₂ cfg₁ c₁ = cacheKeyWith h₂ cfg₂ c₂) := by
  refine ⟨?_, ?_, ?_⟩
  · intro h cfg₁ cfg₂ c₁ c₂ hc hpr hm
    unfold cacheKeyWith hashInput
    rw [hc, hpr, hm]
  · intro h cfg₁ cfg₂ c₁ c₂ hh
    unfold cacheKeyWith
    rw [hh]
  · exact ⟨cfgPromptC, cfgPromptBC, "ab", "a", by decide, fun h₂ => rfl⟩

/-- Witness for C8's amended theorem: two configurations agreeing on
prompt and model (but differing elsewhere) give the same key for the same
content. -/
theorem cache_key_determined_witness :
    cacheKeyWith (fun s => s) cfgPromptC "x"
      = cacheKeyWith (fun s => s) { cfgPromptC with provider := .Local } "x" :=
  cache_key_determined_by_concatenation.1 (fun s => s) cfgPromptC
    { cfgPromptC with provider := .Local } "x" "x" rfl rfl rfl

/-- Counterexample to C8 as stated: the triples ("ab", "c", "m") and
("a", "bc", "m") differ in two components yet concatenate to the same
digest input "abcm", so they are assigned the same cache key — changing a
component does not guarantee a different key. -/
theorem cache_key_collision :
    hashInput cfgPromptC "ab" = hashInput cfgPromptBC "a"
    ∧ ("ab", cfgPromptC.system_prompt, cfgPromptC.model)
        ≠ ("a", cfgPromptBC.system_prompt, cfgPromptBC.model)
    ∧ cacheKeyWith (fun s => s) cfgPromptC "ab" = cacheKeyWith (fun s => s) cfgPromptBC "a" := by
  refine ⟨by decide, by decide, rfl⟩

-- ---------------------------------------------------------------------------
-- C9: provider failure propagates, nothing is cached
-- ---------------------------------------------------------------------------

/-- C9: when the selected provider fails, `summarize` returns the error
to the caller with the cache left exactly as it was — no entry under the
computed key, no negative caching — so an identical subsequent call
reaches the provider again (one further invocation). -/
theorem summarize_provider_failure (h : String → String)
    (providerCall : AiProvider → String → Except String ProviderResult)
    (cfg : AiConfig) (cache : List (String × String)) (content : String) (e : String)
    (hp : providerCall cfg.provider content = .error e)
    (hmiss : cfg.enable_cache = true → lookupCache cache (cacheKeyWith h cfg content) = none) :
    summarize h providerCall cfg cache content = (.error e, cache, 1)
    ∧ (summarize h providerCall cfg
        (summarize h providerCall cfg cache content).2.1 content).2.2 = 1 := by
  have hnone : (if cfg.enable_cache then lookupCache cache (cacheKeyWith h cfg content)
      else none) = none := by
    by_cases hc : cfg.enable_cache = true
    · rw [if_pos hc]
      exact hmiss hc
    · rw [if_neg hc]
  have h1 : summarize h providerCall cfg cache content = (.error e, cache, 1) := by
    unfold summarize
    rw [hnone, hp]
  refine ⟨h1, ?_⟩
  rw [h1]
  show (summarize h providerCall cfg cache content).2.2 = 1
  rw [h1]

/-- Witness for C9: empty cache, provider failing with "auth" — the error
propagates, the cache stays empty, and the retry invokes the provider
again. -/
theorem summarize_provider_failure_witness :
    summarize (fun s => s) (fun _ _ => .error "auth") cfgCache [] "x"
      = (.error "auth", [], 1)
    ∧ (summarize (fun s => s) (fun _ _ => .error "auth") cfgCache
        (summarize (fun s => s) (fun _ _ => .error "auth") cfgCache [] "x").2.1 "x").2.2 = 1 :=
  summarize_provider_failure (fun s => s) (fun _ _ => .error "auth") cfgCache [] "x" "auth"
    rfl (fun _ => rfl)

end Presser
